import Mathlib

/-!
Shallow embedding of `src/classes/sqefficiency.py` (class `SqEfficiency`):
input validation in `SqEfficiency.__init__`, the bound/guess selection and
curve generation in `fit_curve_noise`, the forward model
`sq_asq_model_noise`, and the residual builders
`combined_residuals_noise` / `combined_residuals_noise_no_phase`.
Machine floats are modelled as real numbers; `np.inf` as `Option ℝ` upper
bounds with `none` standing for infinity; the sentinel `P_th = ""` as
`Option ℝ` with `none` standing for the empty string.
-/

namespace SqEff

/-- The three `KeyError`s `SqEfficiency.__init__` can raise (lines 40-45). -/
inductive SqError where
  | insufficientPhase : SqError
  | lengthMismatch : SqError
  | insufficientNoPhase : SqError
deriving DecidableEq, Repr

/-- The validation chain of `SqEfficiency.__init__` (lines 40-48), as a
function of the phase-noise flag, the three array lengths and the stored
(never inspected) threshold argument `pth`.  `none` means the `else`
branch is taken, i.e. `fit_curve_noise` runs. -/
def initErrors (phase : Bool) (npow nsq nasq : Nat) (_pth : Option ℝ) :
    Option SqError :=
  if phase = true ∧ nsq + nasq < 3 then some .insufficientPhase
  else if nsq ≠ nasq ∨ nsq ≠ npow then some .lengthMismatch
  else if phase = false ∧ nsq + nasq < 1 then some .insufficientNoPhase
  else none

/-- Initial guess and box bounds handed to `curve_fit`.  An upper bound of
`none` stands for `np.inf`. -/
structure FitSetup where
  initialGuess : List ℝ
  lowerBounds : List ℝ
  upperBounds : List (Option ℝ)

open Classical in
/-- The guess/bound selection of `fit_curve_noise` (lines 116-121).  The
Python test `if not self.P_th` is true when the stored threshold is the
empty-string sentinel (`none`) or the float `0.0`, which `pth.getD 0 = 0`
captures exactly. -/
noncomputable def fitSetup (phase : Bool) (pth : Option ℝ) : FitSetup :=
  if pth.getD 0 = 0 then
    { initialGuess := if phase then [0.8, 50, 0.2] else [0.8, 50]
      lowerBounds := if phase then [0, 0, 0] else [0, 0]
      upperBounds :=
        if phase then [some 1, none, some (Real.pi / 4)] else [some 1, none] }
  else
    { initialGuess :=
        if phase then [0.8, pth.getD 0, 0.2] else [0.8, pth.getD 0]
      lowerBounds :=
        if phase then [0, pth.getD 0 - 1e-3, 0] else [0, pth.getD 0 - 1e-3]
      upperBounds :=
        if phase then [some 1, some (pth.getD 0 + 1e-3), some (Real.pi / 4)]
        else [some 1, some (pth.getD 0 + 1e-3)] }

/-- A parameter vector lying inside `curve_fit`'s box constraints: this is
the guarantee scipy's trust-region-reflective solver gives for any result
it returns. -/
def respectsBounds (s : FitSetup) (p : List ℝ) : Prop :=
  p.length = s.lowerBounds.length ∧ p.length = s.upperBounds.length ∧
    ∀ i < p.length, s.lowerBounds.getD i 0 ≤ p.getD i 0 ∧
      ∀ u, s.upperBounds.getD i none = some u → p.getD i 0 ≤ u

/-- The coupling parameter `c = np.sqrt(power / P_th)` (line 159). -/
noncomputable def couplingC (power P_th : ℝ) : ℝ := Real.sqrt (power / P_th)

/-- Linear squeezing `sq` of `sq_asq_model_noise` (line 160). -/
noncomputable def sqLin (omega gamma eta P_th power : ℝ) : ℝ :=
  1 - eta * (4 * couplingC power P_th) /
    ((1 + couplingC power P_th) ^ 2 + (omega / gamma) ^ 2)

/-- Linear antisqueezing `asq` of `sq_asq_model_noise` (line 161). -/
noncomputable def asqLin (omega gamma eta P_th power : ℝ) : ℝ :=
  1 + eta * (4 * couplingC power P_th) /
    ((1 - couplingC power P_th) ^ 2 + (omega / gamma) ^ 2)

/-- `10 * np.log10 x`. -/
noncomputable def dB (x : ℝ) : ℝ := 10 * Real.logb 10 x

/-- `sq_asq_model_noise` (lines 146-170) at a single power value; the
array version maps it over the power array.  The first argument is the
`self.phase_noise` mode flag selecting the branch at lines 163-168. -/
noncomputable def sq_asq_model_noise (phase : Bool) (omega gamma : ℝ)
    (eta P_th phase_noise power : ℝ) : ℝ × ℝ :=
  let sq := sqLin omega gamma eta P_th power
  let asq := asqLin omega gamma eta P_th power
  if phase then
    (dB (sq * Real.cos phase_noise ^ 2 + asq * Real.sin phase_noise ^ 2),
     dB (asq * Real.cos phase_noise ^ 2 + sq * Real.sin phase_noise ^ 2))
  else
    (dB sq, dB asq)

/-- `sq_asq_model_noise` on a power array: the pair of output arrays. -/
noncomputable def sq_asq_model_noise_arr (phase : Bool) (omega gamma : ℝ)
    (eta P_th phase_noise : ℝ) (power : List ℝ) : List ℝ × List ℝ :=
  (power.map fun p => (sq_asq_model_noise phase omega gamma eta P_th phase_noise p).1,
   power.map fun p => (sq_asq_model_noise phase omega gamma eta P_th phase_noise p).2)

/-- `combined_residuals_noise` (lines 172-186):
`np.concatenate((sq - self.sq_data, asq - self.asq_data))` with
`sq, asq = self.sq_asq_model_noise(power, eta, P_th, phase_noise)`.
The flag is `self.phase_noise` of the object the method is bound to. -/
noncomputable def combined_residuals_noise (phase : Bool) (omega gamma : ℝ)
    (sqData asqData : List ℝ) (params : ℝ × ℝ × ℝ) (power : List ℝ) :
    List ℝ :=
  let m := sq_asq_model_noise_arr phase omega gamma params.1 params.2.1 params.2.2 power
  (List.zipWith (· - ·) m.1 sqData) ++ (List.zipWith (· - ·) m.2 asqData)

/-- `combined_residuals_noise_no_phase` (lines 188-202): identical, but the
model is called with the literal phase-noise value `0`. -/
noncomputable def combined_residuals_noise_no_phase (phase : Bool)
    (omega gamma : ℝ) (sqData asqData : List ℝ) (params : ℝ × ℝ)
    (power : List ℝ) : List ℝ :=
  let m := sq_asq_model_noise_arr phase omega gamma params.1 params.2 0 power
  (List.zipWith (· - ·) m.1 sqData) ++ (List.zipWith (· - ·) m.2 asqData)

/-- The observation vector handed to `curve_fit` (line 128):
`np.zeros(2 * len(self.power))`. -/
def fitYData (npow : Nat) : List ℝ := List.replicate (2 * npow) 0

/-- `np.linspace start stop num` for `num ≥ 2`: `num` evenly spaced samples
`start + (stop - start) * i / (num - 1)`; over the reals the last sample is
exactly `stop`. -/
noncomputable def linspace (start stop : ℝ) (num : Nat) : List ℝ :=
  (List.range num).map fun i : ℕ =>
    start + (stop - start) * (i : ℝ) / ((num : ℝ) - 1)

/-- The dense display grid of `fit_curve_noise` (line 141):
`np.linspace(0, self.P_th_fit, 1000)`. -/
noncomputable def power_fit (P_th_fit : ℝ) : List ℝ := linspace 0 P_th_fit 1000

/-- The fitted overlay curves of `fit_curve_noise` (line 142):
`self.sq_asq_model_noise(self.power_fit, eta_fit, P_th_fit, phase_noise_fit)`. -/
noncomputable def fittedCurves (phase : Bool) (omega gamma : ℝ)
    (eta_fit P_th_fit phase_noise_fit : ℝ) : List ℝ × List ℝ :=
  sq_asq_model_noise_arr phase omega gamma eta_fit P_th_fit phase_noise_fit
    (power_fit P_th_fit)

end SqEff

namespace SqEff

/-- C5: input validation raises an error when phase noise is enabled and
`len(sq_dB) + len(asq_dB) < 3`, and when phase noise is disabled and the
combined count is `< 1`; in every other case neither minimum-points error
is raised. -/
theorem C5_min_points (phase : Bool) (npow nsq nasq : Nat) (pth : Option ℝ) :
    (phase = true → nsq + nasq < 3 →
      (initErrors phase npow nsq nasq pth).isSome = true) ∧
    (phase = false → nsq + nasq < 1 →
      (initErrors phase npow nsq nasq pth).isSome = true) ∧
    (¬(phase = true ∧ nsq + nasq < 3) → ¬(phase = false ∧ nsq + nasq < 1) →
      initErrors phase npow nsq nasq pth ≠ some .insufficientPhase ∧
      initErrors phase npow nsq nasq pth ≠ some .insufficientNoPhase) := by
  unfold initErrors
  cases phase <;> split_ifs <;> simp_all

/-- C5 witness: with phase noise enabled and `1 + 1 < 3` combined points,
an error is raised. -/
theorem C5_min_points_witness : (initErrors true 1 1 1 none).isSome = true :=
  (C5_min_points true 1 1 1 none).1 rfl (by norm_num)

/-- C6: mismatched array lengths always produce an error, in either
phase-noise mode, so the `else` branch that runs the fit is never
reached. -/
theorem C6_length_mismatch (phase : Bool) (npow nsq nasq : Nat)
    (pth : Option ℝ) (h : npow ≠ nsq ∨ npow ≠ nasq) :
    initErrors phase npow nsq nasq pth ≠ none := by
  unfold initErrors
  cases phase <;> split_ifs <;> simp_all <;> omega

/-- C6 witness: one power value against two squeezing/antisqueezing points
is rejected. -/
theorem C6_length_mismatch_witness : initErrors false 1 2 2 none ≠ none :=
  C6_length_mismatch false 1 2 2 none (Or.inl (by norm_num))

/-- C10: with phase noise enabled, fewer than 3 combined points and
mismatched lengths, the insufficient-points error is the one raised, not
the length-mismatch error. -/
theorem C10_points_check_first (npow nsq nasq : Nat) (pth : Option ℝ)
    (h1 : nsq + nasq < 3) (h2 : npow ≠ nsq ∨ npow ≠ nasq) :
    initErrors true npow nsq nasq pth = some .insufficientPhase := by
  simp [initErrors, h1]

/-- C10 witness: no power value, one squeezing and one antisqueezing point,
phase noise enabled. -/
theorem C10_points_check_first_witness :
    initErrors true 0 1 1 none = some .insufficientPhase :=
  C10_points_check_first 0 1 1 none (by norm_num) (Or.inl (by norm_num))

/-- Pointwise: at phase-noise value `0` the enabled branch collapses to the
disabled branch, since `cos 0 = 1` and `sin 0 = 0`. -/
theorem model_phase_zero (omega gamma eta P_th ε p : ℝ) :
    sq_asq_model_noise true omega gamma eta P_th 0 p =
      sq_asq_model_noise false omega gamma eta P_th ε p := by
  simp [sq_asq_model_noise]

/-- C1: on any power array below threshold, the model with the mode flag
disabled (at any phase-noise value ε) agrees with the model with the mode
flag enabled at ε = 0; and the disabled branch does not depend on ε at
all — the branch is chosen by the flag, not by ε. -/
theorem C1_zero_phase_equiv (power : List ℝ) (omega gamma eta P_th ε : ℝ)
    (h : ∀ p ∈ power, p < P_th) :
    sq_asq_model_noise_arr false omega gamma eta P_th ε power =
      sq_asq_model_noise_arr true omega gamma eta P_th 0 power ∧
    sq_asq_model_noise_arr false omega gamma eta P_th ε power =
      sq_asq_model_noise_arr false omega gamma eta P_th 0 power := by
  constructor
  · unfold sq_asq_model_noise_arr
    refine Prod.ext ?_ ?_ <;> simp only [List.map_inj_left] <;>
      intro p _ <;> rw [model_phase_zero omega gamma eta P_th ε p]
  · rfl

/-- C1 witness: a concrete two-point power array below the threshold 50. -/
theorem C1_zero_phase_equiv_witness :
    sq_asq_model_noise_arr false 5 20.3 0.75 50 0.3 [1, 2] =
      sq_asq_model_noise_arr true 5 20.3 0.75 50 0 [1, 2] ∧
    sq_asq_model_noise_arr false 5 20.3 0.75 50 0.3 [1, 2] =
      sq_asq_model_noise_arr false 5 20.3 0.75 50 0 [1, 2] :=
  C1_zero_phase_equiv [1, 2] 5 20.3 0.75 50 0.3
    (by intro p hp; fin_cases hp <;> norm_num)

/-- C2: with a supplied (positive) fixed threshold `T`, the `P_th` slot of
the bound box is exactly `[T - 1e-3, T + 1e-3]`, and any parameter vector
inside the box — in particular any vector `curve_fit` can return — has its
`P_th` component within `1e-3` of `T`. -/
theorem C2_pinned_threshold (phase : Bool) (T : ℝ) (hT : 0 < T) (p : List ℝ)
    (hp : respectsBounds (fitSetup phase (some T)) p) :
    (fitSetup phase (some T)).lowerBounds.getD 1 0 = T - 1e-3 ∧
    (fitSetup phase (some T)).upperBounds.getD 1 none = some (T + 1e-3) ∧
    |p.getD 1 0 - T| ≤ 1e-3 := by
  have hcond : ¬((some T).getD 0 = (0 : ℝ)) := by simpa using hT.ne'
  obtain ⟨hl, hu, hb⟩ := hp
  rw [fitSetup, if_neg hcond] at hl hb ⊢
  have h1 : 1 < p.length := by cases phase <;> simp_all
  obtain ⟨hlo, hhi⟩ := hb 1 h1
  cases phase
  · simp only [Bool.false_eq_true, if_false, Option.getD_some,
      List.getD_cons_succ, List.getD_cons_zero] at hlo hhi ⊢
    have hup : p.getD 1 0 ≤ T + 1e-3 := hhi (T + 1e-3) rfl
    refine ⟨trivial, trivial, ?_⟩
    rw [abs_le]
    constructor <;> linarith
  · simp only [if_true, Option.getD_some,
      List.getD_cons_succ, List.getD_cons_zero] at hlo hhi ⊢
    have hup : p.getD 1 0 ≤ T + 1e-3 := hhi (T + 1e-3) rfl
    refine ⟨trivial, trivial, ?_⟩
    rw [abs_le]
    constructor <;> linarith

/-- C2 witness: threshold 40 with the in-box parameter vector `[0.5, 40]`. -/
theorem C2_pinned_threshold_witness :
    (fitSetup false (some 40)).lowerBounds.getD 1 0 = 40 - 1e-3 ∧
    (fitSetup false (some 40)).upperBounds.getD 1 none = some (40 + 1e-3) ∧
    |([(0.5 : ℝ), 40].getD 1 0) - 40| ≤ 1e-3 :=
  C2_pinned_threshold false 40 (by norm_num) [0.5, 40] (by
    refine ⟨by norm_num [fitSetup], by norm_num [fitSetup], ?_⟩
    intro i hi
    simp only [List.length_cons, List.length_nil] at hi
    interval_cases i <;> constructor <;> norm_num [fitSetup])

/-- C8: the initial guess is `η₀ = 0.8` always, `P_th₀` the supplied
threshold if present else 50, and `ε₀ = 0.2` exactly when phase noise is
enabled; the box is `η ∈ [0, 1]` always, `P_th ∈ [0, ∞)` when no threshold
is fixed, and an `ε ∈ [0, π/4]` slot present exactly when phase noise is
enabled (vectors have length 3 then, 2 otherwise). -/
theorem C8_guess_and_bounds (phase : Bool) (pth : Option ℝ)
    (h : pth = none ∨ ∃ T, pth = some T ∧ 0 < T) :
    (fitSetup phase pth).initialGuess.getD 0 0 = 0.8 ∧
    (fitSetup phase pth).initialGuess.getD 1 0 = pth.getD 50 ∧
    (phase = true → (fitSetup phase pth).initialGuess.getD 2 0 = 0.2 ∧
      (fitSetup phase pth).initialGuess.length = 3) ∧
    (phase = false → (fitSetup phase pth).initialGuess.length = 2) ∧
    (fitSetup phase pth).lowerBounds.getD 0 0 = 0 ∧
    (fitSetup phase pth).upperBounds.getD 0 none = some 1 ∧
    (pth = none → (fitSetup phase pth).lowerBounds.getD 1 0 = 0 ∧
      (fitSetup phase pth).upperBounds.getD 1 none = none) ∧
    (phase = true → (fitSetup phase pth).lowerBounds.getD 2 0 = 0 ∧
      (fitSetup phase pth).upperBounds.getD 2 none = some (Real.pi / 4) ∧
      (fitSetup phase pth).lowerBounds.length = 3 ∧
      (fitSetup phase pth).upperBounds.length = 3) ∧
    (phase = false → (fitSetup phase pth).lowerBounds.length = 2 ∧
      (fitSetup phase pth).upperBounds.length = 2) := by
  rcases h with rfl | ⟨T, rfl, hT⟩
  · cases phase <;> norm_num [fitSetup]
  · cases phase <;> norm_num [fitSetup, hT.ne'] <;> rintro ⟨⟩

/-- C8 witness: with phase noise enabled and fixed threshold 40, the
initial `P_th` guess is the supplied threshold. -/
theorem C8_guess_and_bounds_witness :
    (fitSetup true (some 40)).initialGuess.getD 1 0 = (some (40 : ℝ)).getD 50 :=
  (C8_guess_and_bounds true (some 40) (Or.inr ⟨40, rfl, by norm_num⟩)).2.1

/-- C7 counterexample: a supplied fixed threshold of `0` raises nothing —
validation succeeds on a well-formed one-point data set — and the fit
setup is exactly the one of an absent threshold, i.e. the value is
silently converted into the "fit it" default. -/
theorem C7_counterexample :
    initErrors false 1 1 1 (some 0) = none ∧
    fitSetup false (some 0) = fitSetup false none := by
  constructor
  · rfl
  · simp [fitSetup]

/-- C7 amended: a supplied fixed threshold `T ≤ 0` never raises an error:
validation ignores the threshold entirely; `T = 0` is silently treated as
absent (the fit-it default); a negative `T` is used as-is and pins the box
to `[T - 1e-3, T + 1e-3]`. -/
theorem C7_no_domain_error (phase : Bool) (npow nsq nasq : Nat) (T : ℝ)
    (hT : T ≤ 0) :
    initErrors phase npow nsq nasq (some T) =
      initErrors phase npow nsq nasq none ∧
    (T = 0 → fitSetup phase (some T) = fitSetup phase none) ∧
    (T < 0 → (fitSetup phase (some T)).lowerBounds.getD 1 0 = T - 1e-3 ∧
      (fitSetup phase (some T)).upperBounds.getD 1 none = some (T + 1e-3)) := by
  refine ⟨rfl, ?_, ?_⟩
  · rintro rfl
    simp [fitSetup]
  · intro hlt
    rw [fitSetup, if_neg (by simpa using hlt.ne)]
    cases phase <;> simp

/-- C7 witness: the negative supplied threshold `-5` triggers no
validation error at all. -/
theorem C7_no_domain_error_witness :
    initErrors false 1 1 1 (some (-5)) = initErrors false 1 1 1 none :=
  (C7_no_domain_error false 1 1 1 (-5) (by norm_num)).1

/-- C3 counterexample: at `power = P_th = 40` with the default detection
frequency 5 and cavity decay rate 20.3, the antisqueezing denominator
`(1 - c)^2 + (omega/gamma)^2` is nonzero — there is no division by zero —
and `asq_lin` takes the finite value `1 + 3 / (5/20.3)^2`. -/
theorem C3_counterexample :
    ((1 - couplingC 40 40) ^ 2 + ((5 : ℝ) / 20.3) ^ 2) ≠ 0 ∧
    asqLin 5 20.3 0.75 40 40 = 1 + 3 / ((5 : ℝ) / 20.3) ^ 2 := by
  have hc : couplingC 40 40 = 1 := by
    rw [couplingC, div_self (by norm_num : (40 : ℝ) ≠ 0), Real.sqrt_one]
  constructor
  · rw [hc]
    norm_num
  · rw [asqLin, hc]
    norm_num

/-- C3 amended: the antisqueezing denominator vanishes at `power = P_th`
only in the degenerate case `omega / gamma = 0`; whenever
`omega / gamma ≠ 0` it is nonzero for every power and threshold, so the
model has no division by zero at `power = P_th`, while for
`omega / gamma = 0` the denominator at `power = P_th ≠ 0` is exactly 0. -/
theorem C3_pole_only_without_detuning (omega gamma power P_th : ℝ) :
    (omega / gamma ≠ 0 →
      (1 - couplingC power P_th) ^ 2 + (omega / gamma) ^ 2 ≠ 0) ∧
    (omega / gamma = 0 → P_th ≠ 0 →
      (1 - couplingC P_th P_th) ^ 2 + (omega / gamma) ^ 2 = 0) := by
  constructor
  · intro h
    have h2 : 0 < (omega / gamma) ^ 2 := sq_pos_of_ne_zero h
    have h3 : 0 ≤ (1 - couplingC power P_th) ^ 2 := sq_nonneg _
    exact ne_of_gt (by linarith)
  · intro h hP
    rw [couplingC, div_self hP, Real.sqrt_one, h]
    norm_num

/-- C3 amended witness: with the default parameters the denominator is
nonzero even exactly at threshold. -/
theorem C3_pole_only_without_detuning_witness :
    (1 - couplingC 30 30) ^ 2 + ((5 : ℝ) / 20.3) ^ 2 ≠ 0 :=
  (C3_pole_only_without_detuning 5 20.3 30 30).1 (by norm_num)

/-- Indexing an elementwise difference vector. -/
theorem getD_zipWith_sub (f g : List ℝ) (i : Nat) (h : i < f.length)
    (h2 : i < g.length) :
    (List.zipWith (· - ·) f g).getD i 0 = f.getD i 0 - g.getD i 0 := by
  rw [List.getD_eq_getElem _ _ (by simp; omega), List.getD_eq_getElem _ _ h,
    List.getD_eq_getElem _ _ h2, List.getElem_zipWith]

/-- C4: the residual vector has length `2N`, its first half is the model
squeezing minus the observed squeezing and its second half the model
antisqueezing minus the observed antisqueezing; the observation vector
handed to `curve_fit` is the zero vector of length `2N`; and the
2-parameter variant is the 3-parameter residual with ε hard-fixed to 0
inside the model call. -/
theorem C4_residuals (phase : Bool) (omega gamma eta P_th ε : ℝ)
    (power sqData asqData : List ℝ)
    (hsq : sqData.length = power.length)
    (hasq : asqData.length = power.length) :
    (combined_residuals_noise phase omega gamma sqData asqData
        (eta, P_th, ε) power).length = 2 * power.length ∧
    (∀ i, i < power.length →
      (combined_residuals_noise phase omega gamma sqData asqData
          (eta, P_th, ε) power).getD i 0 =
        (sq_asq_model_noise phase omega gamma eta P_th ε
          (power.getD i 0)).1 - sqData.getD i 0 ∧
      (combined_residuals_noise phase omega gamma sqData asqData
          (eta, P_th, ε) power).getD (power.length + i) 0 =
        (sq_asq_model_noise phase omega gamma eta P_th ε
          (power.getD i 0)).2 - asqData.getD i 0) ∧
    (fitYData power.length).length = 2 * power.length ∧
    (∀ x ∈ fitYData power.length, x = 0) ∧
    combined_residuals_noise_no_phase phase omega gamma sqData asqData
      (eta, P_th) power =
      combined_residuals_noise phase omega gamma sqData asqData
        (eta, P_th, 0) power := by
  refine ⟨?_, ?_, ?_, ?_, rfl⟩
  · simp only [combined_residuals_noise, sq_asq_model_noise_arr,
      List.length_append, List.length_zipWith, List.length_map, hsq, hasq]
    omega
  · intro i hi
    simp only [combined_residuals_noise, sq_asq_model_noise_arr]
    constructor
    · rw [List.getD_append _ _ _ _ (by simp [hsq]; omega),
        getD_zipWith_sub _ _ _ (by simpa using hi) (by omega)]
      congr 1
      rw [List.getD_eq_getElem _ _ (by simpa using hi),
        List.getD_eq_getElem _ _ hi, List.getElem_map]
    · rw [List.getD_append_right _ _ _ _ (by simp [hsq])]
      have hAl : (List.zipWith (· - ·)
          (power.map fun p =>
            (sq_asq_model_noise phase omega gamma eta P_th ε p).1)
          sqData).length = power.length := by
        simp [hsq]
      rw [hAl, Nat.add_sub_cancel_left,
        getD_zipWith_sub _ _ _ (by simpa using hi) (by omega)]
      congr 1
      rw [List.getD_eq_getElem _ _ (by simpa using hi),
        List.getD_eq_getElem _ _ hi, List.getElem_map]
  · simp [fitYData]
  · intro x hx
    exact List.eq_of_mem_replicate hx

/-- C4 witness: a concrete two-point data set gives a residual vector of
length 4. -/
theorem C4_residuals_witness :
    (combined_residuals_noise false 5 20.3 [-1.5, -2] [4, 6]
        (0.8, 50, 0.2) [6, 10]).length = 2 * ([(6 : ℝ), 10]).length :=
  (C4_residuals false 5 20.3 0.8 50 0.2 [6, 10] [-1.5, -2] [4, 6]
    rfl rfl).1

/-- C9: after a fit with positive fitted threshold, the display grid has
1000 points, starts at 0, ends exactly at the fitted threshold, is
strictly increasing, and the two overlay curves are the forward model
evaluated at each grid point with the fitted parameters. -/
theorem C9_curve_generator (phase : Bool)
    (omega gamma eta_fit P_th_fit ε_fit : ℝ) (hP : 0 < P_th_fit) :
    (power_fit P_th_fit).length = 1000 ∧
    (power_fit P_th_fit).getD 0 0 = 0 ∧
    (power_fit P_th_fit).getD 999 0 = P_th_fit ∧
    List.Pairwise (· < ·) (power_fit P_th_fit) ∧
    fittedCurves phase omega gamma eta_fit P_th_fit ε_fit =
      ((power_fit P_th_fit).map fun p =>
          (sq_asq_model_noise phase omega gamma eta_fit P_th_fit ε_fit p).1,
       (power_fit P_th_fit).map fun p =>
          (sq_asq_model_noise phase omega gamma eta_fit P_th_fit ε_fit p).2) := by
  refine ⟨?_, ?_, ?_, ?_, rfl⟩
  · simp [power_fit, linspace]
  · rw [power_fit, linspace, List.getD_eq_getElem _ _ (by simp),
      List.getElem_map, List.getElem_range]
    norm_num
  · rw [power_fit, linspace, List.getD_eq_getElem _ _ (by simp),
      List.getElem_map, List.getElem_range]
    push_cast
    norm_num
  · rw [power_fit, linspace, List.pairwise_map]
    refine (List.pairwise_lt_range 1000).imp ?_
    intro a b hab
    simp only [zero_add, sub_zero]
    gcongr

/-- C9 witness: a fitted threshold of 40 yields the 1000-point grid. -/
theorem C9_curve_generator_witness : (power_fit 40).length = 1000 :=
  (C9_curve_generator false 5 20.3 0.75 40 0 (by norm_num)).1

end SqEff
